import Mathlib

/-!
# Verification of the stage-3 CFP estimation engine

Shallow embedding of `scripts/stage3_estimate_cfp_threaded.py`: the
pattern-based movement detection (`detect_movements`), metric derivation
(`process_repo`) and the concurrent aggregation loop (`main`).

Modelling conventions:
* Python strings are `String`/`List Char`; all pattern and file text in the
  repository is ASCII, so `re.IGNORECASE` is modelled by ASCII case folding.
* The regular expressions of the pattern table use only character classes,
  literals, `\b`, `\s`, `\w`, `.`, `*`, `+` and alternation of literal words;
  they are embedded as lists of `RAtom` and matched by a backtracking matcher
  with Python `re` semantics (greedy quantifiers, ordered alternation,
  leftmost non-overlapping `findall`).  The matcher is fuelled; the fuel
  bounds the backtracking depth and is always supplied large enough.
* The file system seen by `os.walk` is a list of directories, each with its
  path string (`root`) and its files; a file whose read raises an `OSError`
  is modelled with `content = none` (decode errors cannot raise because the
  code opens files with `errors="ignore"`).
* Python floats are modelled by exact rationals; `round(x, 2)` is modelled
  by `round2`, rounding half to even as Python's `round` does.
* Machine integers are `Nat` (all line metrics are non-negative counts, per
  the input contract of the line-counting stage).
-/

namespace Stage3

/-- ASCII lower-casing of a character code, as `re.IGNORECASE` folds ASCII. -/
def lowerNat (c : Char) : Nat :=
  if 65 ≤ c.toNat ∧ c.toNat ≤ 90 then c.toNat + 32 else c.toNat

/-- Case-insensitive character equality (ASCII folding). -/
def ciEq (a b : Char) : Bool := lowerNat a = lowerNat b

/-- Python `\w` on ASCII: letters, digits and underscore. -/
def isWordChar (c : Char) : Bool :=
  (65 ≤ c.toNat && c.toNat ≤ 90) || (97 ≤ c.toNat && c.toNat ≤ 122) ||
  (48 ≤ c.toNat && c.toNat ≤ 57) || c.toNat = 95

/-- Python `\s` on ASCII: space, tab, newline, carriage return, FF, VT. -/
def isSpaceChar (c : Char) : Bool :=
  c.toNat = 32 || c.toNat = 9 || c.toNat = 10 || c.toNat = 13 ||
  c.toNat = 12 || c.toNat = 11

/-- Python `.` without `DOTALL`: any character except newline. -/
def isDotChar (c : Char) : Bool := c.toNat ≠ 10

/-- The class `[A-Z]` under `re.IGNORECASE`: any ASCII letter. -/
def isAZChar (c : Char) : Bool :=
  (65 ≤ c.toNat && c.toNat ≤ 90) || (97 ≤ c.toNat && c.toNat ≤ 122)

/-- One atom of the regular expressions used by the pattern table. -/
inductive RAtom where
  /-- a single-character class (also covers case-folded literals) -/
  | cls : (Char → Bool) → RAtom
  /-- greedy `*` over a single-character class -/
  | star : (Char → Bool) → RAtom
  /-- greedy `+` over a single-character class -/
  | plus : (Char → Bool) → RAtom
  /-- the word boundary `\b` -/
  | wb : RAtom
  /-- ordered alternation of literal words, e.g. `(GET|POST)` -/
  | alt : List (List Char) → RAtom

/-- A match rule is a sequence of atoms. -/
abbrev Rule := List RAtom

/-- The boundary `\b` holds between a word character and a non-word character (string
edges count as non-word); `prev` is the character before the position. -/
def atBoundary (prev : Option Char) (s : List Char) : Bool :=
  let a := match prev with
    | some c => isWordChar c
    | none => false
  let b := match s with
    | c :: _ => isWordChar c
    | [] => false
  a != b

/-- Strip a literal word (case-insensitively) off the front of `s`;
returns the rest and the last character consumed (`last` if none was). -/
def stripCI : List Char → List Char → Option Char → Option (List Char × Option Char)
  | [], s, last => some (s, last)
  | _ :: _, [], _ => none
  | a :: as, b :: bs, _ => if ciEq a b then stripCI as bs (some b) else none

/-- Backtracking matcher: does `re` match a prefix of `s`?  Returns the
remaining suffix of the first (leftmost, greedy, ordered-alternation) match,
exactly as Python's `re` engine anchors a match at this position.  `prev` is
the character preceding `s` in the full text (for `\b`).  `fuel` bounds the
depth of one backtracking path; `s.length + re.length + 1` always suffices
because every step consumes a character or discards an atom. -/
def matchHereF : Nat → List RAtom → List Char → Option Char → Option (List Char)
  | 0, _, _, _ => none
  | _ + 1, [], s, _ => some s
  | fuel + 1, r :: rs, s, prev =>
    match r with
    | RAtom.cls p =>
      match s with
      | [] => none
      | c :: cs => if p c then matchHereF fuel rs cs (some c) else none
    | RAtom.wb =>
      if atBoundary prev s then matchHereF fuel rs s prev else none
    | RAtom.plus p =>
      match s with
      | [] => none
      | c :: cs =>
        if p c then matchHereF fuel (RAtom.star p :: rs) cs (some c) else none
    | RAtom.star p =>
      match s with
      | [] => matchHereF fuel rs [] prev
      | c :: cs =>
        if p c then
          match matchHereF fuel (RAtom.star p :: rs) cs (some c) with
          | some rest => some rest
          | none => matchHereF fuel rs s prev
        else matchHereF fuel rs s prev
    | RAtom.alt cands =>
      cands.findSome? (fun cand =>
        match stripCI cand s prev with
        | some (rest, last) => matchHereF fuel rs rest last
        | none => none)

/-- Try to match `re` at the start of `s`, with ample fuel. -/
def matchAt (re : List RAtom) (s : List Char) (prev : Option Char) : Option (List Char) :=
  matchHereF (s.length + re.length + 1) re s prev

/-- Non-overlapping left-to-right match count, as `len(re.findall(p, text))`:
advance one character when no match (or an empty match) starts here, else
skip the matched span.  `fuel = s.length + 1` always suffices since every
step shortens `s`. -/
def scanCountF (re : List RAtom) : Nat → List Char → Option Char → Nat
  | 0, _, _ => 0
  | _ + 1, [], _ => 0
  | fuel + 1, c :: s, prev =>
    match matchAt re (c :: s) prev with
    | none => scanCountF re fuel s (some c)
    | some rest =>
      let k := (c :: s).length - rest.length
      if k = 0 then 1 + scanCountF re fuel s (some c)
      else 1 + scanCountF re fuel rest ((c :: s).get? (k - 1))

/-- Model of `len(re.findall(p, text, re.IGNORECASE))` for one embedded rule. -/
def countMatches (re : Rule) (text : String) : Nat :=
  scanCountF re (text.toList.length + 1) text.toList none

/-- Is `needle` a prefix of `hay` (exact, as Python's `in` / `startswith`)? -/
def startsList : List Char → List Char → Bool
  | [], _ => true
  | _ :: _, [] => false
  | a :: as, b :: bs => a = b && startsList as bs

/-- Python's substring test `needle in hay` (exact, case-sensitive). -/
def containsList (needle : List Char) : List Char → Bool
  | [] => needle.isEmpty
  | b :: bs => startsList needle (b :: bs) || containsList needle bs

/-- Python's `str.endswith`. -/
def endsWithB (s suf : String) : Bool :=
  startsList suf.toList.reverse s.toList.reverse

/-- A case-folded literal character of a pattern. -/
def lit (c : Char) : RAtom := RAtom.cls (fun x => ciEq x c)

/-- A case-folded literal word of a pattern. -/
def strRule (s : String) : List RAtom := s.toList.map lit

/-- An alternation group of literal words, e.g. `(GET|POST|PUT)`. -/
def altOf (ws : List String) : RAtom := RAtom.alt (ws.map String.toList)

/-- The `PATTERNS` table of the script: each movement category with its
regexes, transcribed atom by atom (an escaped `\.` is the literal dot, an
unescaped `.` is the any-character class). -/
def PATTERNS : List (String × List Rule) :=
  [ ("entry",
     [ [RAtom.wb] ++ strRule "router." ++ [altOf ["GET", "POST", "PUT", "DELETE", "PATCH"]],
       [RAtom.wb] ++ strRule "mux.HandleFunc",
       [RAtom.wb] ++ strRule "app." ++ [altOf ["Get", "Post", "Put", "Delete", "Patch"]],
       [RAtom.wb] ++ strRule "cobra.Command",
       [RAtom.wb] ++ strRule "Register" ++ [RAtom.star isDotChar] ++ strRule "Server",
       [RAtom.wb] ++ strRule "http.HandleFunc",
       [RAtom.wb] ++ strRule "grpc.NewServer",
       [RAtom.wb] ++ strRule "chi.NewRouter",
       [RAtom.wb] ++ strRule "fiber.New",
       [RAtom.wb] ++ strRule "gin.Default",
       [RAtom.wb] ++ strRule "func" ++
         [RAtom.plus isSpaceChar, RAtom.cls isAZChar, RAtom.star isWordChar, lit '('] ]),
    ("exit",
     [ [RAtom.wb] ++ strRule "ctx.JSON",
       [RAtom.wb] ++ strRule "w.Write",
       [RAtom.wb] ++ strRule "http.ResponseWriter",
       [RAtom.wb] ++ strRule "return" ++ [RAtom.plus isSpaceChar] ++ strRule "json",
       [RAtom.wb] ++ strRule "return" ++ [RAtom.plus isSpaceChar] ++ strRule "fmt.Sprintf",
       [RAtom.wb] ++ strRule "template.Execute",
       [RAtom.wb] ++ strRule "render." ++ [altOf ["HTML", "JSON", "Template"]],
       [RAtom.wb] ++ strRule "fmt.Fprintf" ]),
    ("read",
     [ [RAtom.wb] ++ strRule "db." ++
         [altOf ["Find", "Select", "Query", "QueryRow", "QueryRows", "First", "Where"]],
       [RAtom.wb] ++ strRule "read" ++ [RAtom.star isDotChar] ++ strRule "File",
       [RAtom.wb] ++ strRule "ios.Open",
       [RAtom.wb] ++ strRule "json.Unmarshal",
       [RAtom.wb] ++ strRule "ioutil.ReadFile" ]),
    ("write",
     [ [RAtom.wb] ++ strRule "db." ++
         [altOf ["Create", "Save", "Exec", "Update", "Insert", "SaveChanges"]],
       [RAtom.wb] ++ strRule "write" ++ [RAtom.star isDotChar] ++ strRule "File",
       [RAtom.wb] ++ strRule "ios.Write",
       [RAtom.wb] ++ strRule "json.Marshal",
       [RAtom.wb] ++ strRule "ioutil.WriteFile" ]),
    ("channel",
     [ strRule "<-chan",
       strRule "chan" ++ [RAtom.star isSpaceChar] ++ strRule "<-" ]),
    ("goroutine",
     [ [RAtom.wb] ++ strRule "go" ++
         [RAtom.plus isSpaceChar, RAtom.plus isWordChar, lit '('] ]) ]

/-- The `MULTIPLIERS` table of the script. -/
def MULTIPLIERS : List (String × Nat) :=
  [("entry", 1), ("exit", 1), ("read", 1), ("write", 1), ("channel", 1), ("goroutine", 1)]

/-- Model of `MULTIPLIERS.get(k, 1)`: the configured weight, defaulting to `1`. -/
def weight_of (w : List (String × Nat)) (k : String) : Nat :=
  match w.find? (fun p => p.1 == k) with
  | some p => p.2
  | none => 1

/-- One file of a repository tree; `content = none` models a file whose
read raises an `OSError` (caught by the `except` branch of the scan). -/
structure FileEntry where
  name : String
  content : Option String
deriving DecidableEq

/-- One directory yielded by `os.walk`: its path string and its files. -/
structure DirEntry where
  root : String
  files : List FileEntry
deriving DecidableEq

/-- The excluded-segment tokens of the directory skip test. -/
def SKIP_TOKENS : List String := ["vendor", "third_party", "generated"]

/-- Model of `any(skip in root for skip in [...])`: the path substring test. -/
def dirExcluded (root : String) : Bool :=
  SKIP_TOKENS.any (fun t => containsList t.toList root.toList)

/-- The file filter: `not (not f.endswith(".go") or f.endswith("_test.go"))`. -/
def fileEligible (name : String) : Bool :=
  endsWithB name ".go" && !endsWithB name "_test.go"

/-- The rules a taxonomy assigns to one category (keys are unique, as in a
Python dict). -/
def catRules (tax : List (String × List Rule)) (cat : String) : List Rule :=
  match tax.find? (fun p => p.1 == cat) with
  | some p => p.2
  | none => []

/-- What one file adds to `counts[cat]`: the inner loop of
`detect_movements` (skipped files and failed reads add nothing). -/
def fileContrib (tax : List (String × List Rule)) (cat : String) (fe : FileEntry) : Nat :=
  if fileEligible fe.name then
    match fe.content with
    | some text => ((catRules tax cat).map (fun p => countMatches p text)).sum
    | none => 0
  else 0

/-- What one walked directory adds to `counts[cat]` (an excluded `root`
hits `continue` and adds nothing). -/
def dirContrib (tax : List (String × List Rule)) (cat : String) (d : DirEntry) : Nat :=
  if dirExcluded d.root then 0
  else (d.files.map (fileContrib tax cat)).sum

/-- Model of `detect_movements(repo_path)[cat]`: the per-category count accumulated
over the whole walk. -/
def detect_movements (tax : List (String × List Rule)) (repo : List DirEntry)
    (cat : String) : Nat :=
  (repo.map (dirContrib tax cat)).sum

/-- The floor of a rational, written computably (`Rat.floor_def`:
`⌊q⌋ = q.num / q.den` with Euclidean integer division). -/
def ratFloor (q : ℚ) : ℤ := q.num / (q.den : ℤ)

/-- Round to the nearest integer, ties to even — Python's `round`. -/
def roundHalfEven (q : ℚ) : ℤ :=
  let f := ratFloor q
  let r := q - (f : ℚ)
  if r < 1 / 2 then f
  else if 1 / 2 < r then f + 1
  else if f % 2 = 0 then f else f + 1

/-- Model of `round(x, 2)` on the exact rational value. -/
def round2 (q : ℚ) : ℚ := ((roundHalfEven (q * 100) : ℚ)) / 100

/-- One input row of `eloc_metrics.csv`, with each line-metric column
possibly absent (`row.get` falls back to a default then). -/
structure Row where
  repo : String
  total_eloc : Option Nat
  total : Option Nat
  code : Option Nat
  comments : Option Nat
  blanks : Option Nat
deriving DecidableEq

/-- The dict a successful `process_repo` call returns. -/
structure Record where
  repo : String
  code : Nat
  comments : Nat
  blanks : Nat
  total_eloc : Nat
  movements : List (String × Nat)
  cfp_total : Nat
  eloc_per_cfp : ℚ
  cfp_per_kloc : ℚ
deriving DecidableEq

/-- The `REPO_DIR` constant of the script. -/
def REPO_DIR : String := "repos"

/-- Model of `process_repo(row)`: `None` when the repository path is absent from the
file system `fs`, otherwise the finalized record.  Truthiness of
`if total_cfp` / `if code` on the non-negative counts is `≠ 0`. -/
def process_repo (tax : List (String × List Rule)) (w : List (String × Nat))
    (fs : String → Option (List DirEntry)) (row : Row) : Option Record :=
  let repo_path := REPO_DIR ++ "/" ++ row.repo
  match fs repo_path with
  | none => none
  | some tree =>
    let movements := fun k => detect_movements tax tree k
    let total_cfp := (tax.map (fun kp => movements kp.1 * weight_of w kp.1)).sum
    let total_eloc := row.total_eloc.getD (row.total.getD 0)
    let code := row.code.getD 0
    let eloc_per_cfp : ℚ :=
      if total_cfp ≠ 0 then round2 ((total_eloc : ℚ) / (total_cfp : ℚ)) else 0
    let cfp_per_kloc : ℚ :=
      if code ≠ 0 then round2 ((total_cfp : ℚ) / (code : ℚ) * 1000) else 0
    some { repo := row.repo
           code := code
           comments := row.comments.getD 0
           blanks := row.blanks.getD 0
           total_eloc := total_eloc
           movements := tax.map (fun kp => (kp.1, movements kp.1))
           cfp_total := total_cfp
           eloc_per_cfp := eloc_per_cfp
           cfp_per_kloc := cfp_per_kloc }

/-- The keys of the dict literal `process_repo` returns, in construction
order (`**movements` spreads the taxonomy's categories). -/
def emitKeys (tax : List (String × List Rule)) : List String :=
  ["repo", "code", "comments", "blanks", "total_eloc"] ++
  tax.map Prod.fst ++
  ["cfp_total", "eloc_per_cfp", "cfp_per_kloc"]

/-- The `results` list `main` collects: every submitted row whose task
returns a (truthy, i.e. non-`None`) record. -/
def main_results (tax : List (String × List Rule)) (w : List (String × Nat))
    (fs : String → Option (List DirEntry)) (rows : List Row) : List Record :=
  rows.filterMap (process_repo tax w fs)

/-- The same run under an arbitrary completion order of the thread pool:
`sched` enumerates the task indices in the order `as_completed` yields
them.  Each task owns its row and its counts (no shared mutable state in
`detect_movements`/`process_repo`), so a task's record is the same pure
function of its row as in the sequential run. -/
def concurrentRun (tax : List (String × List Rule)) (w : List (String × Nat))
    (fs : String → Option (List DirEntry)) (rows : List Row)
    (sched : List Nat) : List Record :=
  (sched.filterMap (fun i => rows[i]?)).filterMap (process_repo tax w fs)

/-! ## Concrete instances used by the example and the witnesses -/

/-- A file system with a single, empty repository tree at `repos/alpha`. -/
def fsA : String → Option (List DirEntry) :=
  fun p => if p = "repos/alpha" then some [] else none

/-- An input row for `repos/alpha` with every line-metric column absent. -/
def rowA : Row :=
  { repo := "alpha", total_eloc := none, total := none,
    code := none, comments := none, blanks := none }

/-- An input row whose repository path `repos/beta` does not exist in `fsA`. -/
def rowB : Row :=
  { repo := "beta", total_eloc := some 7, total := none,
    code := some 4, comments := some 1, blanks := some 1 }

/-- The record `process_repo` produces for `rowA` over `fsA`. -/
def recA : Record :=
  { repo := "alpha", code := 0, comments := 0, blanks := 0, total_eloc := 0,
    movements := [("entry", 0), ("exit", 0), ("read", 0), ("write", 0),
      ("channel", 0), ("goroutine", 0)],
    cfp_total := 0, eloc_per_cfp := 0, cfp_per_kloc := 0 }

/-- The one-file example text of the spec's example scenario. -/
def handlerText : String :=
  "func Handler(w http.ResponseWriter, r *Request) \x7b w.Write(data) \x7d"

/-- The example taxonomy: only `\bfunc\s+[A-Z]\w*\(` as `entry` and
`w.Write` as `exit` (the `.` being the any-character class). -/
def exampleTax : List (String × List Rule) :=
  [ ("entry",
     [ [RAtom.wb] ++ strRule "func" ++
       [RAtom.plus isSpaceChar, RAtom.cls isAZChar, RAtom.star isWordChar, lit '('] ]),
    ("exit", [ [lit 'w', RAtom.cls isDotChar] ++ strRule "Write" ]),
    ("read", []), ("write", []), ("channel", []), ("goroutine", []) ]

/-- A repository with exactly one eligible file holding `handlerText`. -/
def exampleTree : List DirEntry :=
  [⟨"repos/example", [⟨"handler.go", some handlerText⟩]⟩]

/-- A file system on which every repository path resolves to `exampleTree`. -/
def fsExample : String → Option (List DirEntry) := fun _ => some exampleTree

/-- The example's input row: `code = 10`. -/
def rowExample : Row :=
  { repo := "example", total_eloc := none, total := none,
    code := some 10, comments := none, blanks := none }

/-! ## Helper lemmas -/

theorem ratFloor_intCast (n : ℤ) : ratFloor (n : ℚ) = n := by
  unfold ratFloor
  simp

theorem roundHalfEven_intCast (n : ℤ) : roundHalfEven (n : ℚ) = n := by
  unfold roundHalfEven
  rw [ratFloor_intCast]
  norm_num

theorem round2_intCast (n : ℤ) : round2 ((n : ℚ)) = (n : ℚ) := by
  unfold round2
  have h : ((n : ℚ) * 100) = ((n * 100 : ℤ) : ℚ) := by push_cast; ring
  rw [h, roundHalfEven_intCast]
  push_cast
  rw [mul_div_assoc]
  norm_num

theorem round2_zero : round2 0 = 0 := by
  have h := round2_intCast 0
  simpa using h

/-- Everything a successful `process_repo` call determines about its record. -/
theorem process_repo_spec {tax : List (String × List Rule)} {w : List (String × Nat)}
    {fs : String → Option (List DirEntry)} {row : Row} {rec : Record}
    (h : process_repo tax w fs row = some rec) :
    ∃ tree, fs (REPO_DIR ++ "/" ++ row.repo) = some tree ∧
      rec.repo = row.repo ∧
      rec.code = row.code.getD 0 ∧
      rec.comments = row.comments.getD 0 ∧
      rec.blanks = row.blanks.getD 0 ∧
      rec.total_eloc = row.total_eloc.getD (row.total.getD 0) ∧
      rec.movements = tax.map (fun kp => (kp.1, detect_movements tax tree kp.1)) ∧
      rec.cfp_total = (tax.map (fun kp =>
        detect_movements tax tree kp.1 * weight_of w kp.1)).sum ∧
      rec.eloc_per_cfp = (if rec.cfp_total ≠ 0 then
        round2 ((rec.total_eloc : ℚ) / (rec.cfp_total : ℚ)) else 0) ∧
      rec.cfp_per_kloc = (if rec.code ≠ 0 then
        round2 ((rec.cfp_total : ℚ) / (rec.code : ℚ) * 1000) else 0) := by
  cases hfs : fs (REPO_DIR ++ "/" ++ row.repo) with
  | none =>
    rw [process_repo, hfs] at h
    cases h
  | some tree =>
    rw [process_repo, hfs] at h
    refine ⟨tree, rfl, ?_⟩
    have hrec := (Option.some.injEq _ _).mp h
    subst hrec
    simp

theorem filterMap_getElem_range {α : Type} (l : List α) :
    (List.range l.length).filterMap (fun i => l[i]?) = l := by
  induction l with
  | nil => rfl
  | cons a l ih =>
    rw [List.length_cons, List.range_succ_eq_map, List.filterMap_cons, List.filterMap_map]
    simp only [List.getElem?_cons_zero, Function.comp_def, List.getElem?_cons_succ]
    rw [ih]

/-! ## Claims -/

/-- Claim C1: for every repository record emitted by `process_repo`, the
derived `cfp_total` equals the exact sum, over all movement categories, of
the raw occurrence count times that category's weight (`weight_of` defaults
to 1 for a category absent from the weight table); the sum is over `Nat`,
so it is exact integer arithmetic with no rounding. -/
theorem cfp_total_eq_weighted_sum (tax : List (String × List Rule))
    (w : List (String × Nat)) (fs : String → Option (List DirEntry))
    (row : Row) (rec : Record) (h : process_repo tax w fs row = some rec) :
    rec.cfp_total = (rec.movements.map (fun p => p.2 * weight_of w p.1)).sum := by
  obtain ⟨tree, -, -, -, -, -, -, hmov, hcfp, -, -⟩ := process_repo_spec h
  rw [hcfp, hmov, List.map_map]
  rfl

theorem cfp_total_eq_weighted_sum_witness :
    recA.cfp_total = (recA.movements.map (fun p => p.2 * weight_of MULTIPLIERS p.1)).sum :=
  cfp_total_eq_weighted_sum PATTERNS MULTIPLIERS fsA rowA recA (by decide)

/-- Claim C2: metric derivation never divides by zero — for every record a
`process_repo` call emits, if `cfp_total > 0` then `eloc_per_cfp` is
`total_eloc / cfp_total` rounded to 2 decimal places, else the sentinel 0;
if `code > 0` then `cfp_per_kloc` is `(cfp_total / code) * 1000` rounded to
2 decimal places, else the sentinel 0.  (`process_repo` is a total
function, so no division error can be raised.) -/
theorem derived_metric_sentinels (tax : List (String × List Rule))
    (w : List (String × Nat)) (fs : String → Option (List DirEntry))
    (row : Row) (rec : Record) (h : process_repo tax w fs row = some rec) :
    (0 < rec.cfp_total →
      rec.eloc_per_cfp = round2 ((rec.total_eloc : ℚ) / (rec.cfp_total : ℚ))) ∧
    (rec.cfp_total = 0 → rec.eloc_per_cfp = 0) ∧
    (0 < rec.code →
      rec.cfp_per_kloc = round2 ((rec.cfp_total : ℚ) / (rec.code : ℚ) * 1000)) ∧
    (rec.code = 0 → rec.cfp_per_kloc = 0) := by
  obtain ⟨tree, -, -, -, -, -, -, -, -, helo, hklo⟩ := process_repo_spec h
  refine ⟨fun h1 => ?_, fun h1 => ?_, fun h1 => ?_, fun h1 => ?_⟩
  · rw [helo, if_pos (Nat.pos_iff_ne_zero.mp h1)]
  · rw [helo, if_neg (by simp [h1])]
  · rw [hklo, if_pos (Nat.pos_iff_ne_zero.mp h1)]
  · rw [hklo, if_neg (by simp [h1])]

theorem derived_metric_sentinels_witness :
    (0 < recA.cfp_total →
      recA.eloc_per_cfp = round2 ((recA.total_eloc : ℚ) / (recA.cfp_total : ℚ))) ∧
    (recA.cfp_total = 0 → recA.eloc_per_cfp = 0) ∧
    (0 < recA.code →
      recA.cfp_per_kloc = round2 ((recA.cfp_total : ℚ) / (recA.code : ℚ) * 1000)) ∧
    (recA.code = 0 → recA.cfp_per_kloc = 0) :=
  derived_metric_sentinels PATTERNS MULTIPLIERS fsA rowA recA (by decide)

/-- Claim C10: `process_repo` reads `total_eloc` from the row's
`total_eloc` column, silently falling back to the `total` column when that
is absent, and to 0 when both are; `code`, `comments` and `blanks` default
to 0 when absent; a row with no line metrics at all still yields a complete
record whose derived metrics are the sentinels. -/
theorem row_field_fallbacks (tax : List (String × List Rule))
    (w : List (String × Nat)) (fs : String → Option (List DirEntry))
    (row : Row) (rec : Record) (h : process_repo tax w fs row = some rec) :
    rec.total_eloc = row.total_eloc.getD (row.total.getD 0) ∧
    rec.code = row.code.getD 0 ∧
    rec.comments = row.comments.getD 0 ∧
    rec.blanks = row.blanks.getD 0 ∧
    (row.total_eloc = none → row.total = none → row.code = none →
      rec.total_eloc = 0 ∧ rec.code = 0 ∧
      rec.eloc_per_cfp = 0 ∧ rec.cfp_per_kloc = 0) := by
  obtain ⟨tree, -, -, hcode, hcom, hbl, hte, -, -, helo, hklo⟩ := process_repo_spec h
  refine ⟨hte, hcode, hcom, hbl, fun h1 h2 h3 => ?_⟩
  have hte0 : rec.total_eloc = 0 := by rw [hte, h1, h2]; rfl
  have hcode0 : rec.code = 0 := by rw [hcode, h3]; rfl
  refine ⟨hte0, hcode0, ?_, by rw [hklo, if_neg (by simp [hcode0])]⟩
  by_cases hc : rec.cfp_total = 0
  · rw [helo, if_neg (by simp [hc])]
  · rw [helo, if_pos hc, hte0]
    norm_num [round2_zero]

theorem startsList_extend (t s e : List Char) (h : startsList t s = true) :
    startsList t (s ++ e) = true := by
  induction t generalizing s with
  | nil => rfl
  | cons a as ih =>
    cases s with
    | nil => cases h
    | cons b bs =>
      rw [List.cons_append]
      unfold startsList at h ⊢
      rw [Bool.and_eq_true] at h ⊢
      exact ⟨h.1, ih bs h.2⟩

theorem containsList_nil_needle (l : List Char) : containsList [] l = true := by
  cases l <;> simp [containsList, startsList]

theorem containsList_extend (t s e : List Char) (h : containsList t s = true) :
    containsList t (s ++ e) = true := by
  induction s with
  | nil =>
    have ht : t = [] := by simpa [containsList] using h
    subst ht
    exact containsList_nil_needle e
  | cons b bs ih =>
    rw [List.cons_append]
    unfold containsList at h ⊢
    rw [Bool.or_eq_true] at h ⊢
    rcases h with h1 | h2
    · exact Or.inl (startsList_extend _ _ _ h1)
    · exact Or.inr (ih h2)

/-- The substring test is monotone under path extension: every directory
below an excluded one has an excluded path, too. -/
theorem dirExcluded_extend (root ext : String) (h : dirExcluded root = true) :
    dirExcluded (root ++ ext) = true := by
  unfold dirExcluded at h ⊢
  rw [List.any_eq_true] at h ⊢
  obtain ⟨t, ht, hc⟩ := h
  refine ⟨t, ht, ?_⟩
  have he : (root ++ ext).toList = root.toList ++ ext.toList := rfl
  rw [he]
  exact containsList_extend _ _ _ hc

/-- Claim C4: a file in a directory whose path contains one of the
excluded-segment tokens (`vendor`, `third_party`, `generated`) as a
substring contributes nothing to the scan, whatever its content; every
directory below it (its path extends the excluded path) is skipped the
same way; and removing such a directory from the walk leaves every
category count unchanged. -/
theorem excluded_dir_contributes_nothing (tax : List (String × List Rule))
    (cat : String) (root ext : String) (files files' : List FileEntry)
    (repo1 repo2 : List DirEntry) (hex : dirExcluded root = true) :
    dirContrib tax cat ⟨root, files⟩ = 0 ∧
    dirContrib tax cat ⟨root ++ ext, files'⟩ = 0 ∧
    detect_movements tax (repo1 ++ (⟨root, files⟩ : DirEntry) :: repo2) cat =
      detect_movements tax (repo1 ++ repo2) cat := by
  have h1 : dirContrib tax cat ⟨root, files⟩ = 0 := by
    unfold dirContrib
    rw [if_pos hex]
  have h2 : dirContrib tax cat ⟨root ++ ext, files'⟩ = 0 := by
    unfold dirContrib
    rw [if_pos (dirExcluded_extend root ext hex)]
  refine ⟨h1, h2, ?_⟩
  unfold detect_movements
  rw [List.map_append, List.map_append, List.map_cons, List.sum_append,
    List.sum_append, List.sum_cons, h1, Nat.zero_add]

theorem excluded_dir_contributes_nothing_witness :
    dirContrib PATTERNS "entry" ⟨"repos/x/vendor", [⟨"a.go", some "func Main("⟩]⟩ = 0 ∧
    dirContrib PATTERNS "entry" ⟨"repos/x/vendor" ++ "/sub", [⟨"b.go", some "func Main("⟩]⟩ = 0 ∧
    detect_movements PATTERNS
      ([] ++ (⟨"repos/x/vendor", [⟨"a.go", some "func Main("⟩]⟩ : DirEntry) :: []) "entry" =
      detect_movements PATTERNS ([] ++ []) "entry" :=
  excluded_dir_contributes_nothing PATTERNS "entry" "repos/x/vendor" "/sub"
    [⟨"a.go", some "func Main("⟩] [⟨"b.go", some "func Main("⟩] [] [] (by decide)

/-- Claim C5: the scan counts a file's content only when its name ends in
`.go` and does not end in `_test.go`; a `_test.go` file contributes zero
to every category no matter what its content matches. -/
theorem test_file_contributes_nothing (tax : List (String × List Rule))
    (cat : String) (fe : FileEntry) :
    (endsWithB fe.name "_test.go" = true → fileContrib tax cat fe = 0) ∧
    (fileContrib tax cat fe ≠ 0 →
      endsWithB fe.name ".go" = true ∧ endsWithB fe.name "_test.go" = false) := by
  constructor
  · intro h
    unfold fileContrib fileEligible
    rw [h]
    simp
  · intro h
    unfold fileContrib fileEligible at h
    by_cases hel : (endsWithB fe.name ".go" && !endsWithB fe.name "_test.go") = true
    · rw [Bool.and_eq_true, Bool.not_eq_true'] at hel
      exact hel
    · rw [if_neg hel] at h
      exact absurd rfl h

theorem test_file_contributes_nothing_witness :
    fileContrib PATTERNS "entry" ⟨"main_test.go", some "func TestMain("⟩ = 0 ∧
    (endsWithB "main.go" ".go" = true ∧ endsWithB "main.go" "_test.go" = false) :=
  ⟨(test_file_contributes_nothing PATTERNS "entry"
      ⟨"main_test.go", some "func TestMain("⟩).1 (by decide),
   (test_file_contributes_nothing PATTERNS "entry"
      ⟨"main.go", some "func Main("⟩).2 (by decide)⟩

/-- Claim C7: a failed read of one file (the `except` branch of the
per-file loop) never aborts the scan: the walk's counts with the
unreadable file present equal the counts over the remaining readable
files, in every category. -/
theorem unreadable_file_skipped (tax : List (String × List Rule))
    (cat : String) (root : String) (files1 files2 : List FileEntry)
    (fe : FileEntry) (repo1 repo2 : List DirEntry) (h : fe.content = none) :
    detect_movements tax
      (repo1 ++ (⟨root, files1 ++ fe :: files2⟩ : DirEntry) :: repo2) cat =
    detect_movements tax
      (repo1 ++ (⟨root, files1 ++ files2⟩ : DirEntry) :: repo2) cat := by
  have hfe : fileContrib tax cat fe = 0 := by
    unfold fileContrib
    rw [h]
    simp
  unfold detect_movements
  congr 1
  rw [List.map_append, List.map_append]
  congr 1
  rw [List.map_cons, List.map_cons]
  congr 1
  unfold dirContrib
  by_cases hex : dirExcluded root = true
  · rw [if_pos hex, if_pos hex]
  · rw [if_neg hex, if_neg hex]
    rw [List.map_append, List.map_append, List.map_cons, List.sum_append,
      List.sum_append, List.sum_cons, hfe, Nat.zero_add]

theorem unreadable_file_skipped_witness :
    detect_movements PATTERNS
      ([] ++ (⟨"repos/y", [⟨"ok.go", some "func Main("⟩] ++
        (⟨"bad.go", none⟩ : FileEntry) :: []⟩ : DirEntry) :: []) "entry" =
    detect_movements PATTERNS
      ([] ++ (⟨"repos/y", [⟨"ok.go", some "func Main("⟩] ++ []⟩ : DirEntry) :: []) "entry" :=
  unreadable_file_skipped PATTERNS "entry" "repos/y"
    [⟨"ok.go", some "func Main("⟩] [] ⟨"bad.go", none⟩ [] [] (by decide)

theorem row_field_fallbacks_witness :
    recA.total_eloc = rowA.total_eloc.getD (rowA.total.getD 0) ∧
    recA.code = rowA.code.getD 0 ∧
    recA.comments = rowA.comments.getD 0 ∧
    recA.blanks = rowA.blanks.getD 0 ∧
    (rowA.total_eloc = none → rowA.total = none → rowA.code = none →
      recA.total_eloc = 0 ∧ recA.code = 0 ∧
      recA.eloc_per_cfp = 0 ∧ recA.cfp_per_kloc = 0) :=
  row_field_fallbacks PATTERNS MULTIPLIERS fsA rowA recA (by decide)

/-- Claim C6: an input row whose repository path does not exist is skipped
entirely — its task returns `None`, the collected results with that row
present equal the results without it, so the output set holds no record
(broken or otherwise) for the identifier, and its size is unchanged. -/
theorem missing_repo_excluded (tax : List (String × List Rule))
    (w : List (String × Nat)) (fs : String → Option (List DirEntry))
    (rows1 rows2 : List Row) (row : Row)
    (h : fs (REPO_DIR ++ "/" ++ row.repo) = none) :
    process_repo tax w fs row = none ∧
    main_results tax w fs (rows1 ++ row :: rows2) =
      main_results tax w fs (rows1 ++ rows2) ∧
    (main_results tax w fs (rows1 ++ row :: rows2)).length =
      (main_results tax w fs (rows1 ++ rows2)).length := by
  have hp : process_repo tax w fs row = none := by
    rw [process_repo, h]
  have hm : main_results tax w fs (rows1 ++ row :: rows2) =
      main_results tax w fs (rows1 ++ rows2) := by
    unfold main_results
    rw [List.filterMap_append, List.filterMap_append, List.filterMap_cons, hp]
  exact ⟨hp, hm, congrArg List.length hm⟩

theorem missing_repo_excluded_witness :
    process_repo PATTERNS MULTIPLIERS fsA rowB = none ∧
    main_results PATTERNS MULTIPLIERS fsA ([rowA] ++ rowB :: []) =
      main_results PATTERNS MULTIPLIERS fsA ([rowA] ++ []) ∧
    (main_results PATTERNS MULTIPLIERS fsA ([rowA] ++ rowB :: [])).length =
      (main_results PATTERNS MULTIPLIERS fsA ([rowA] ++ [])).length :=
  missing_repo_excluded PATTERNS MULTIPLIERS fsA [rowA] [] rowB (by decide)

/-- Claim C9: the worker tasks share no mutable state (each owns its row
and its counts), so a concurrent run is the sequential computation
performed in the completion order `sched`; for every number of
repositories and every interleaving (`sched` a permutation of the task
indices) the collected records are a permutation of the sequential ones —
in particular each repository gets exactly the per-category counts of its
own sequential scan, with no cross-task interference. -/
theorem concurrent_matches_sequential (tax : List (String × List Rule))
    (w : List (String × Nat)) (fs : String → Option (List DirEntry))
    (rows : List Row) (sched : List Nat)
    (h : sched.Perm (List.range rows.length)) :
    (concurrentRun tax w fs rows sched).Perm (main_results tax w fs rows) := by
  unfold concurrentRun main_results
  have h2 := h.filterMap (fun i => rows[i]?)
  rw [filterMap_getElem_range] at h2
  exact h2.filterMap (process_repo tax w fs)

theorem concurrent_matches_sequential_witness :
    (concurrentRun PATTERNS MULTIPLIERS fsA [rowA, rowB] [1, 0]).Perm
      (main_results PATTERNS MULTIPLIERS fsA [rowA, rowB]) :=
  concurrent_matches_sequential PATTERNS MULTIPLIERS fsA [rowA, rowB] [1, 0]
    (by decide)

/-- Claim C8 is false on the code: `process_repo` does emit a record (for
`rowA` over `fsA`), yet the emitted dict carries no `error` key — its key
set, `emitKeys PATTERNS`, does not contain `"error"` at all. -/
theorem emitted_record_lacks_error_field :
    (process_repo PATTERNS MULTIPLIERS fsA rowA).isSome = true ∧
    "error" ∉ emitKeys PATTERNS := by
  exact ⟨by decide, by decide⟩

/-- Claim C8 (amended): every record emitted into the output set carries
exactly the columns repo, code, comments, blanks, total_eloc, one raw
count per movement category, cfp_total, eloc_per_cfp and cfp_per_kloc —
and no error field; a failed repository is represented by omitting its
record, not by a diagnostic string. -/
theorem emitKeys_exact :
    emitKeys PATTERNS = ["repo", "code", "comments", "blanks", "total_eloc",
      "entry", "exit", "read", "write", "channel", "goroutine",
      "cfp_total", "eloc_per_cfp", "cfp_per_kloc"] ∧
    "error" ∉ emitKeys PATTERNS := by
  exact ⟨by decide, by decide⟩

/-- Claim C3: on the repository whose only eligible file is `handlerText`,
the example taxonomy (entry `\bfunc\s+[A-Z]\w*\(`, exit `w.Write`) counts
entry = 1, exit = 1 and 0 for every other category; with `code = 10` the
derived metrics are `cfp_total = 2` and `cfp_per_kloc = 200.0`. -/
theorem handler_example_counts :
    detect_movements exampleTax exampleTree "entry" = 1 ∧
    detect_movements exampleTax exampleTree "exit" = 1 ∧
    detect_movements exampleTax exampleTree "read" = 0 ∧
    detect_movements exampleTax exampleTree "write" = 0 ∧
    detect_movements exampleTax exampleTree "channel" = 0 ∧
    detect_movements exampleTax exampleTree "goroutine" = 0 ∧
    (process_repo exampleTax MULTIPLIERS fsExample rowExample).map Record.cfp_total
      = some 2 ∧
    (process_repo exampleTax MULTIPLIERS fsExample rowExample).map Record.cfp_per_kloc
      = some 200 := by
  have hcfp : (exampleTax.map (fun kp =>
      detect_movements exampleTax exampleTree kp.1 * weight_of MULTIPLIERS kp.1)).sum
      = 2 := by decide
  refine ⟨by decide, by decide, by decide, by decide, by decide, by decide, ?_, ?_⟩
  · simp only [process_repo, fsExample, Option.map_some']
    exact congrArg some hcfp
  · simp only [process_repo, fsExample, Option.map_some', Option.some.injEq,
      rowExample, Option.getD_some]
    rw [hcfp]
    rw [if_pos (by norm_num : (10 : ℕ) ≠ 0)]
    have h3 : ((2 : ℕ) : ℚ) / ((10 : ℕ) : ℚ) * 1000 = ((200 : ℤ) : ℚ) := by
      push_cast
      norm_num
    rw [h3, round2_intCast]
    norm_num

end Stage3
